import Mathlib

/-!
Verification of the `cs-react-hooks` utility collection against its
specification.  Each hook is shallowly embedded as a pure state-transition
model translated from the JavaScript source:

* `useLocalStorage` (file `src/useDebounce.js`): a persistent key-value
  binding over `window.localStorage` with JSON (de)serialization.
* `useFetch` (file `src/useFetch.js`): a remote data fetcher with
  loading/error/data state and `AbortController`-based cancellation.
* `useDebounce` (unnamed source file): a value debouncer built on
  `setTimeout`/`clearTimeout`.
* `useInterval` (file `src/useInterval.js`): a repeating-timer runner with a
  `savedCallback` ref and a `[delay]`-keyed interval effect.
* `usePrevious` (file `src/usePrevious.js`): a previous-value tracker built
  on a ref written by an effect after each render.
* `useOnClickOutside` (unnamed source file): an outside-interaction detector
  listening on `mousedown` and `touchstart` at the document root.
* `useToggle` (unnamed source file): a boolean toggle state.

The single-threaded, event-callback execution model of the host is embedded
by running explicit event lists over the state types; browser APIs
(`localStorage`, `fetch`, timers, the DOM) are modelled by their observable
interface at the exact points the source touches them.
-/

namespace ReactHooks

/-! ## useLocalStorage (source file `src/useDebounce.js`)

The external store maps string keys to stored strings.  A stored string is
modelled by what `JSON.parse` does to it: `StoredItem.ser v` stands for the
string `JSON.stringify v` of a serializable value `v` (on which `JSON.parse`
is a left inverse of `JSON.stringify`, round-trip safety of JSON for the
value types the caller stores), and `StoredItem.junk s` stands for any
content on which `JSON.parse` throws.  Store read and write failures of the
browser API (security errors, quota exhaustion) are injected through the
`readThrows` / `writeThrows` flags. -/

/-- Content of one store slot, classified by how `JSON.parse` treats it. -/
inductive StoredItem (V : Type) where
  | ser (v : V)
  | junk (s : String)
  deriving DecidableEq

/-- Model of `JSON.parse` on a store slot: the serialized value, or `none`
when parsing throws. -/
def jsonParse {V : Type} : StoredItem V → Option V
  | .ser v => some v
  | .junk _ => none

/-- Model of `localStorage.getItem`: first binding of the key, `none` when
the key is absent. -/
def storeGet {V : Type} : List (String × StoredItem V) → String → Option (StoredItem V)
  | [], _ => none
  | (k, it) :: rest, key => if k = key then some it else storeGet rest key

/-- Model of `localStorage.setItem`: the new binding shadows older ones. -/
def storeSet {V : Type} (store : List (String × StoredItem V)) (key : String)
    (it : StoredItem V) : List (String × StoredItem V) :=
  (key, it) :: store

/-- The `useState` initializer of `useLocalStorage`: read the key inside
`try`, parse it when present (a thrown read or parse is caught, logged and
replaced by `initialValue`), fall back to `initialValue` when absent. -/
def initialStoredValue {V : Type} (readThrows : Bool)
    (store : List (String × StoredItem V)) (key : String) (initialValue : V) : V :=
  if readThrows then initialValue
  else
    match storeGet store key with
    | none => initialValue
    | some it =>
      match jsonParse it with
      | some v => v
      | none => initialValue

/-- Argument accepted by the setter: a literal value or a functional update
(`value instanceof Function`). -/
inductive SetArg (V : Type) where
  | lit (v : V)
  | fn (f : V → V)

/-- The `valueToStore` computed at the top of `setValue`. -/
def resolveArg {V : Type} (arg : SetArg V) (prev : V) : V :=
  match arg with
  | .lit v => v
  | .fn f => f prev

/-- State owned by one `useLocalStorage` binding: the React state
`storedValue` plus the external store. -/
structure LSState (V : Type) where
  storedValue : V
  store : List (String × StoredItem V)

/-- The hook's `setValue`, translated statement by statement: compute
`valueToStore`, call `setStoredValue` (the React state update takes effect),
then call `localStorage.setItem`.  When the write throws the surrounding
`try`/`catch` logs and swallows the error, so the function always returns:
the state update that already happened persists and the store is untouched. -/
def setValue {V : Type} (writeThrows : Bool) (key : String) (st : LSState V)
    (arg : SetArg V) : LSState V :=
  let valueToStore := resolveArg arg st.storedValue
  let st1 : LSState V := { st with storedValue := valueToStore }
  if writeThrows then st1
  else { st1 with store := storeSet st1.store key (.ser valueToStore) }

/-- Reading the binding's key back out of the store and parsing it. -/
def readValue {V : Type} (st : LSState V) (key : String) : Option V :=
  (storeGet st.store key).bind jsonParse

/-! ## useFetch (source file `src/useFetch.js`)

The fetcher's React state is `data`/`error`/`loading` plus the
`abortController` ref.  Each call of `fetchData` is one request, identified
by the `AbortController` it creates (a natural-number id here); `aborted`
records every controller on which `abort()` has been called.  A run is a
list of events: `issue id` is a synchronous invocation of `fetchData`
creating controller `id`, and `settle id res` is the later completion of
that invocation's async body, where `res` is what the `try` block would
produce from the network (`Except.ok` a decoded body, `Except.error` a
thrown error).  Issuing a new request aborts the pending one, so a settle
of an aborted id takes the `AbortError` path: the `catch` clause discards
the error and only the `finally` clause runs. -/

/-- Errors the `try` block of `fetchData` can throw (other than the
`AbortError` of its own controller): a non-ok HTTP status, a network-level
failure, or an unsupported `responseType`. -/
inductive FetchErr where
  | http (status : Nat)
  | net (msg : String)
  | badResponseType (rt : String)
  deriving DecidableEq

/-- State of one `useFetch` binding. -/
structure FetchState (D : Type) where
  data : Option D
  error : Option FetchErr
  loading : Bool
  current : Option Nat
  aborted : List Nat

/-- Initial state: `data = null`, `error = null`, `loading = !manual`, no
controller yet. -/
def fetchInit (D : Type) (manual : Bool) : FetchState D :=
  { data := none, error := none, loading := !manual, current := none, aborted := [] }

/-- One event of a run of the fetcher. -/
inductive FetchEv (D : Type) where
  | issue (id : Nat)
  | settle (id : Nat) (res : Except FetchErr D)

/-- One step of the fetcher, translated from `fetchData`:

* `issue id` — with a falsy `url` the function warns and returns before
  touching any state.  Otherwise it aborts the previous controller if any,
  installs the fresh controller `id`, and runs `setLoading(true)` and
  `setError(null)`.
* `settle id res` — if `id` was aborted, the pending awaits of that
  invocation reject with `AbortError`; the `catch` clause ignores it and the
  `finally` clause runs `setLoading(false)`.  Otherwise the body commits:
  `setData` on success, `setError` on a thrown error, and in both cases the
  `finally` clause runs `setLoading(false)`. -/
def fetchStep {D : Type} (url : String) (s : FetchState D) (e : FetchEv D) : FetchState D :=
  match e with
  | .issue id =>
    if url = "" then s
    else
      { s with
        aborted := match s.current with
          | some c => c :: s.aborted
          | none => s.aborted
        current := some id
        loading := true
        error := none }
  | .settle id res =>
    if id ∈ s.aborted then { s with loading := false }
    else
      match res with
      | .ok d => { s with data := some d, loading := false }
      | .error err => { s with error := some err, loading := false }

/-- Running a list of fetcher events. -/
def runFetch {D : Type} (url : String) (s : FetchState D) : List (FetchEv D) → FetchState D
  | [] => s
  | e :: rest => runFetch url (fetchStep url s e) rest

/-- The `data` field a request's outcome commits. -/
def outcomeData {D : Type} : Except FetchErr D → Option D
  | .ok d => some d
  | .error _ => none

/-- The `error` field a request's outcome commits. -/
def outcomeError {D : Type} : Except FetchErr D → Option FetchErr
  | .ok _ => none
  | .error e => some e

/-! ## useDebounce (unnamed source file)

State of one `useDebounce` binding: the committed `debouncedValue`, the
pending `setTimeout` (its fire time and the value it will commit), and the
log of every commit performed so far (time, value).  A new rendered input at
time `t` first lets a timer whose fire time has already been reached run,
then — as the effect's cleanup and body — clears the pending timer and
schedules a fresh one for `t + delay`. -/

/-- State of one `useDebounce` binding, extended with a commit log. -/
structure DebState (V : Type) where
  debounced : V
  pending : Option (Nat × V)
  commits : List (Nat × V)

/-- A pending timer fires once the clock reaches its scheduled time:
`setDebouncedValue` commits the captured value. -/
def fireIfDue {V : Type} (s : DebState V) (now : Nat) : DebState V :=
  match s.pending with
  | none => s
  | some (ft, v) =>
    if ft ≤ now then
      { debounced := v, pending := none, commits := s.commits ++ [(ft, v)] }
    else s

/-- A new input value rendered at time `t`: any ripe timer has fired before
this event; the effect cleanup (`clearTimeout`) forgets the pending timer
and the effect body (`setTimeout`) schedules the commit of `v` for
`t + delay`. -/
def inputAt {V : Type} (delay : Nat) (s : DebState V) (t : Nat) (v : V) : DebState V :=
  let s1 := fireIfDue s t
  { s1 with pending := some (t + delay, v) }

/-- Running a list of timed inputs through the debouncer. -/
def runInputs {V : Type} (delay : Nat) (s : DebState V) : List (Nat × V) → DebState V
  | [] => s
  | (t, v) :: rest => runInputs delay (inputAt delay s t v) rest

/-- Letting the clock run to the end: the pending timer, if any, fires. -/
def flushPending {V : Type} (s : DebState V) : DebState V :=
  match s.pending with
  | none => s
  | some (ft, v) => { debounced := v, pending := none, commits := s.commits ++ [(ft, v)] }

/-- A burst relative to a previous input at time `tprev`: times strictly
increase and every gap is smaller than `delay`. -/
def BurstAfter {V : Type} (delay : Nat) : Nat → List (Nat × V) → Prop
  | _, [] => True
  | tprev, (t, _) :: rest => tprev < t ∧ t < tprev + delay ∧ BurstAfter delay t rest

/-- The last input of a nonempty input sequence, written with the head
split off. -/
def lastInput {V : Type} : Nat × V → List (Nat × V) → Nat × V
  | first, [] => first
  | _, x :: rest => lastInput x rest

/-! ## useInterval (source file `src/useInterval.js`)

State of one `useInterval` binding: the `savedCallback` ref, the `delay`
the interval effect last ran with, and the identity of the live interval
timer (`none` when paused).  A render updates `savedCallback` (the first
effect), and the second effect — keyed on `[delay]` — re-runs only when the
delay changed: it clears the old interval and, unless the delay is `null`,
starts a fresh one.  A tick invokes `savedCallback.current`. -/

/-- State of one `useInterval` binding. -/
structure IntervalState (C : Type) where
  savedCallback : C
  delay : Option Nat
  timerId : Option Nat

/-- A render of the component using the hook, with the callback `cb` and
delay `d` passed this time; `fresh` is the id `setInterval` would return if
a new interval is started. -/
def renderInterval {C : Type} (s : IntervalState C) (cb : C) (d : Option Nat)
    (fresh : Nat) : IntervalState C :=
  let s1 : IntervalState C := { s with savedCallback := cb }
  if d = s.delay then s1
  else
    match d with
    | none => { s1 with delay := none, timerId := none }
    | some _ => { s1 with delay := d, timerId := some fresh }

/-- What a tick of the interval invokes: `savedCallback.current` when a
timer is live, nothing when ticking is stopped. -/
def tickCallback {C : Type} (s : IntervalState C) : Option C :=
  match s.timerId with
  | none => none
  | some _ => some s.savedCallback

/-! ## usePrevious (source file `src/usePrevious.js`) -/

/-- Running `usePrevious` over successive rendered values, starting from ref
content `r` (`none` on a fresh mount): each evaluation returns the current
ref content, after which the effect stores the just-rendered value. -/
def runPrevious {V : Type} (r : Option V) : List V → List (Option V)
  | [] => []
  | v :: vs => r :: runPrevious (some v) vs

/-! ## useOnClickOutside (unnamed source file)

The designated region is `ref.current`: `none` when the ref is not bound to
a live element, otherwise the element abstracted by its
`contains` predicate over event targets (which includes the element
itself and its descendants).  The same listener is registered for the
`mousedown` and `touchstart` document events. -/

/-- One dispatched document interaction event of the classes the hook
listens to: a `mousedown` with its button number (0 = primary) or a
`touchstart`, each carrying its target. -/
inductive PointerEv (T : Type) where
  | mousedown (button : Nat) (target : T)
  | touchstart (target : T)

/-- Target of an interaction event. -/
def evTarget {T : Type} : PointerEv T → T
  | .mousedown _ t => t
  | .touchstart t => t

/-- How many times one dispatched event invokes the handler: the listener
runs once per registered event class the event belongs to (both classes use
the same listener, each event belongs to one class); it returns without
calling the handler when `ref.current` is unbound or contains the target,
and calls the handler exactly once otherwise. -/
def handlerInvocations {T : Type} (refCurrent : Option (T → Bool)) (ev : PointerEv T) : Nat :=
  match refCurrent with
  | none => 0
  | some contains => if contains (evTarget ev) then 0 else 1

/-! ## useToggle (unnamed source file) -/

/-- The hook's `toggle`: `setState (prev => !prev)`. -/
def toggle (b : Bool) : Bool := !b

/-- The hook's `setTrue`: `setState true`. -/
def setTrue (_ : Bool) : Bool := true

/-- The hook's `setFalse`: `setState false`. -/
def setFalse (_ : Bool) : Bool := false

/-! ## Helper lemmas -/

/-- Running `usePrevious` over a list of values yields the ref's start
content followed by each value but the last: one cycle of lag. -/
theorem runPrevious_eq_dropLast {V : Type} (r : Option V) (vs : List V) :
    runPrevious r vs = (r :: vs.map some).dropLast := by
  induction vs generalizing r with
  | nil => rfl
  | cons v vs ih =>
    cases vs with
    | nil => rfl
    | cons w ws => simpa [runPrevious] using ih (r := some v)

/-- With a falsy url, `fetchData` returns before touching any state, so a
run of issue events is the identity on the fetcher's state. -/
theorem runFetch_emptyUrl_issues {D : Type} (s : FetchState D) (ids : List Nat) :
    runFetch "" s (ids.map .issue) = s := by
  induction ids generalizing s with
  | nil => rfl
  | cons id rest ih => simpa [runFetch, fetchStep] using ih _

/-- Core debounce lemma: starting with a timer scheduled `delay` after the
previous input at `tprev`, a burst of further inputs never lets a timer
fire (each arrives strictly before the pending fire time), so after the
burst and a final flush exactly one commit happened: the last input's
value, at its time plus `delay`. -/
theorem runInputs_burst {V : Type} (delay : Nat) (rest : List (Nat × V)) :
    ∀ (tprev : Nat) (w d0 : V) (cs : List (Nat × V)),
      BurstAfter delay tprev rest →
      flushPending (runInputs delay ⟨d0, some (tprev + delay, w), cs⟩ rest)
        = ⟨(lastInput (tprev, w) rest).2, none,
            cs ++ [((lastInput (tprev, w) rest).1 + delay, (lastInput (tprev, w) rest).2)]⟩ := by
  induction rest with
  | nil =>
    intro tprev w d0 cs _
    simp [runInputs, flushPending, lastInput]
  | cons x rest ih =>
    intro tprev w d0 cs hb
    obtain ⟨t, v⟩ := x
    obtain ⟨h1, h2, h3⟩ := hb
    have hfire : ¬ (tprev + delay ≤ t) := Nat.not_le.mpr h2
    simpa [runInputs, inputAt, fireIfDue, hfire, lastInput] using ih t v d0 cs h3

/-! ## The claims -/

/-- C1, counterexample: issue request 1, then request 2 before 1 settles;
request 1 is now canceled and the fetcher is loading, yet when request 1's
canceled invocation settles, its `finally` clause still writes the
`loading` state field (from `true` to `false`). -/
theorem canceled_settle_flips_loading :
    (runFetch "u" (fetchInit Nat false) [.issue 1, .issue 2]).loading = true
    ∧ 1 ∈ (runFetch "u" (fetchInit Nat false) [.issue 1, .issue 2]).aborted
    ∧ (fetchStep "u" (runFetch "u" (fetchInit Nat false) [.issue 1, .issue 2])
        (.settle 1 (.ok 5))).loading = false := by
  decide

/-- C1, amended: issuing request A (id 1) and then request B (id 2) before A
settles leaves the final `data`, `error` and `loading` state reflecting only
B's outcome, whichever settlement order occurs; and a canceled request's
settlement never updates `data` or `error` — but its `finally` clause does
write `loading := false`. -/
theorem fetch_race_commits_newest {D : Type} (url : String)
    (resA resB : Except FetchErr D) (s : FetchState D) (id : Nat)
    (res : Except FetchErr D) (hurl : url ≠ "") (hab : id ∈ s.aborted) :
    ((runFetch url (fetchInit D false)
        [.issue 1, .issue 2, .settle 1 resA, .settle 2 resB]).data = outcomeData resB
      ∧ (runFetch url (fetchInit D false)
          [.issue 1, .issue 2, .settle 1 resA, .settle 2 resB]).error = outcomeError resB
      ∧ (runFetch url (fetchInit D false)
          [.issue 1, .issue 2, .settle 1 resA, .settle 2 resB]).loading = false)
    ∧ ((runFetch url (fetchInit D false)
          [.issue 1, .issue 2, .settle 2 resB, .settle 1 resA]).data = outcomeData resB
      ∧ (runFetch url (fetchInit D false)
          [.issue 1, .issue 2, .settle 2 resB, .settle 1 resA]).error = outcomeError resB
      ∧ (runFetch url (fetchInit D false)
          [.issue 1, .issue 2, .settle 2 resB, .settle 1 resA]).loading = false)
    ∧ ((fetchStep url s (.settle id res)).data = s.data
      ∧ (fetchStep url s (.settle id res)).error = s.error
      ∧ (fetchStep url s (.settle id res)).loading = false) := by
  refine ⟨?_, ?_, ?_⟩
  · cases resB <;> cases resA <;>
      simp [runFetch, fetchStep, fetchInit, outcomeData, outcomeError, hurl]
  · cases resB <;> cases resA <;>
      simp [runFetch, fetchStep, fetchInit, outcomeData, outcomeError, hurl]
  · simp [fetchStep, hab]

/-- C1, witness: a concrete race (both requests succeed, the canceled one
settles first) ends with request 2's data committed. -/
theorem fetch_race_commits_newest_witness :
    (runFetch "u" (fetchInit Nat false)
        [.issue 1, .issue 2, .settle 1 (.ok 5), .settle 2 (.ok 9)]).data = some 9 := by
  have h := fetch_race_commits_newest (D := Nat) "u" (.ok 5) (.ok 9)
    { data := none, error := none, loading := true, current := some 2, aborted := [1] }
    1 (.ok 7) (by decide) (by decide)
  simpa [outcomeData] using h.1.1

/-- C2, counterexample: with the store write throwing, `setValue 1` on a
binding whose in-memory value is `0` leaves the in-memory value at `1`, not
at the pre-failure value `0`: the React state update runs before the store
write is attempted. -/
theorem setValue_writeFailure_keeps_new_value :
    (setValue true "k" { storedValue := (0 : Int), store := [] } (.lit 1)).storedValue
      ≠ ({ storedValue := (0 : Int), store := [] } : LSState Int).storedValue := by
  decide

/-- C2, amended: every store failure during `setValue` is caught and logged
without propagating (the transition is total), and a failed write leaves the
external store unchanged; but the in-memory value has already been updated
to the newly computed value, so after a write failure the in-memory value is
the new value rather than the pre-failure one. -/
theorem setValue_writeFailure_state (V : Type) (key : String) (st : LSState V)
    (arg : SetArg V) :
    (setValue true key st arg).store = st.store
    ∧ (setValue true key st arg).storedValue = resolveArg arg st.storedValue := by
  simp [setValue]

/-- C3: with the store healthy, `setValue` with a literal or a functional
update makes the in-memory value and the parsed store content under the
binding's key both equal to the new value. -/
theorem setValue_roundTrip (V : Type) (key : String) (st : LSState V) (v : V)
    (f : V → V) :
    ((setValue false key st (.lit v)).storedValue = v
      ∧ readValue (setValue false key st (.lit v)) key = some v)
    ∧ ((setValue false key st (.fn f)).storedValue = f st.storedValue
      ∧ readValue (setValue false key st (.fn f)) key = some (f st.storedValue)) := by
  simp [setValue, readValue, resolveArg, storeSet, storeGet, jsonParse]

/-- C4: over any burst of inputs in which each input arrives strictly less
than `delay` after the previous one, only the burst's final value is ever
committed to the debounced output, and the one commit carries fire time
`delay` after the burst's last input. -/
theorem debounce_burst_commits_only_last {V : Type} (delay t0 : Nat) (v0 : V)
    (rest : List (Nat × V)) (d0 : V) (hb : BurstAfter delay t0 rest) :
    (flushPending (runInputs delay ⟨d0, none, []⟩ ((t0, v0) :: rest))).commits
      = [((lastInput (t0, v0) rest).1 + delay, (lastInput (t0, v0) rest).2)]
    ∧ (flushPending (runInputs delay ⟨d0, none, []⟩ ((t0, v0) :: rest))).debounced
      = (lastInput (t0, v0) rest).2 := by
  have hrun : runInputs delay ⟨d0, none, []⟩ ((t0, v0) :: rest)
      = runInputs delay ⟨d0, some (t0 + delay, v0), []⟩ rest := by
    simp [runInputs, inputAt, fireIfDue]
  rw [hrun, runInputs_burst delay rest t0 v0 d0 [] hb]
  simp

/-- C4, witness: inputs 1 at time 0 and 2 at time 3 under delay 5 commit
only the value 2, at time 8. -/
theorem debounce_burst_witness :
    (flushPending (runInputs 5 ({ debounced := 0, pending := none, commits := [] } : DebState Nat)
        [(0, 1), (3, 2)])).commits = [(8, 2)] := by
  have h := debounce_burst_commits_only_last 5 0 1 [((3 : Nat), (2 : Nat))] 0
    (by refine ⟨?_, ?_, trivial⟩ <;> decide)
  simpa [lastInput] using h.1

/-- C5: replacing the callback while keeping the cadence leaves the running
interval timer in place (same timer identity, same delay) and the next tick
invokes the new callback; rendering with the `null` cadence sentinel tears
the timer down and stops ticking. -/
theorem interval_invokes_latest_callback {C : Type} (s : IntervalState C)
    (cb2 : C) (fresh fresh2 tid d0 : Nat) (hrun : s.timerId = some tid)
    (hdel : s.delay = some d0) :
    (renderInterval s cb2 s.delay fresh).timerId = some tid
    ∧ (renderInterval s cb2 s.delay fresh).delay = some d0
    ∧ tickCallback (renderInterval s cb2 s.delay fresh) = some cb2
    ∧ (renderInterval s cb2 none fresh2).timerId = none
    ∧ tickCallback (renderInterval s cb2 none fresh2) = none := by
  simp [renderInterval, tickCallback, hrun, hdel]

/-- C5, witness: with callback 1 running at cadence 1000 on timer 7,
rendering with callback 2 and the same cadence makes the next tick invoke
callback 2. -/
theorem interval_invokes_latest_callback_witness :
    tickCallback (renderInterval
      ({ savedCallback := 1, delay := some 1000, timerId := some 7 } : IntervalState Nat)
      2 (some 1000) 8) = some 2 := by
  have h := interval_invokes_latest_callback
    ({ savedCallback := 1, delay := some 1000, timerId := some 7 } : IntervalState Nat)
    2 8 9 7 1000 rfl rfl
  exact h.2.2.1

/-- C6: when the initial store read throws, or the stored content under the
key is unparsable, the binding initializes to the caller-supplied default. -/
theorem init_falls_back_to_default {V : Type} (readThrows : Bool)
    (store : List (String × StoredItem V)) (key : String) (d : V) (s : String)
    (h : readThrows = true ∨ storeGet store key = some (.junk s)) :
    initialStoredValue readThrows store key d = d := by
  rcases h with h | h
  · simp [initialStoredValue, h]
  · cases readThrows <;> simp [initialStoredValue, h, jsonParse]

/-- C6, witness: unparsable stored content under the key falls back to the
default 0. -/
theorem init_falls_back_to_default_witness :
    initialStoredValue false [("k", StoredItem.junk "not-json")] "k" (0 : Int) = 0 :=
  init_falls_back_to_default false [("k", StoredItem.junk "not-json")] "k" 0 "not-json"
    (Or.inr (by simp [storeGet]))

/-- C7: observing the values `[a, b, c]` over successive evaluations returns
`[none, some a, some b]` — the unset sentinel first, then the value of the
immediately preceding evaluation; in general the returned sequence is the
ref's start content followed by all observed values but the last. -/
theorem usePrevious_lags_one_cycle {V : Type} (a b c : V) (r : Option V)
    (vs : List V) :
    runPrevious (V := V) none [a, b, c] = [none, some a, some b]
    ∧ runPrevious r vs = (r :: vs.map some).dropLast := by
  exact ⟨rfl, runPrevious_eq_dropLast r vs⟩

/-- C8: a primary-button `mousedown` or a `touchstart` whose target the
region does not contain invokes the handler exactly once; no event invokes
it when the ref is unbound, and no `mousedown` (any button) or `touchstart`
whose target lies inside the region invokes it. -/
theorem clickOutside_invokes_once {T : Type} (c : T → Bool) (tgt tgt2 : T)
    (b : Nat) (ev : PointerEv T) (hout : c tgt = false) (hin : c tgt2 = true) :
    handlerInvocations (some c) (.mousedown 0 tgt) = 1
    ∧ handlerInvocations (some c) (.touchstart tgt) = 1
    ∧ handlerInvocations (none : Option (T → Bool)) ev = 0
    ∧ handlerInvocations (some c) (.mousedown b tgt2) = 0
    ∧ handlerInvocations (some c) (.touchstart tgt2) = 0 := by
  simp [handlerInvocations, evTarget, hout, hin]

/-- C8, witness: a primary `mousedown` on target 1, outside a region that
contains only target 0, invokes the handler exactly once. -/
theorem clickOutside_invokes_once_witness :
    handlerInvocations (some (fun t => t == 0)) (PointerEv.mousedown 0 (1 : Nat)) = 1 :=
  (clickOutside_invokes_once (fun t => t == 0) 1 0 5 (.touchstart 3) rfl rfl).1

/-- C9: `toggle` is an involution on the boolean state, and `setTrue`
followed by `setFalse` yields `false` from any prior state. -/
theorem toggle_involutive (b : Bool) :
    toggle (toggle b) = b ∧ setFalse (setTrue b) = false := by
  cases b <;> simp [toggle, setTrue, setFalse]

/-- C10: in automatic mode with a falsy url, any number of `fetchData`
invocations leaves the fetcher's state exactly at its initial value: no
request is issued, `data` and `error` stay `null` and `loading` stays at its
initial `true`. -/
theorem emptyUrl_leaves_state_loading (D : Type) (ids : List Nat) :
    runFetch "" (fetchInit D false) (ids.map .issue) = fetchInit D false
    ∧ (fetchInit D false).loading = true
    ∧ (fetchInit D false).data = none
    ∧ (fetchInit D false).error = none := by
  exact ⟨runFetch_emptyUrl_issues _ ids, rfl, rfl, rfl⟩

end ReactHooks
